import Mathlib

/-!
Verification of the CheapStop search backend (`src/main.py`).

The development shallowly embeds the program's core pipeline:
* `haversine` — the great-circle distance helper (real-number model of the
  float code, with Python's `math.atan2` embedded as `atan2`);
* comma parsing / whitespace stripping of the `query` field;
* the deterministic pseudo-pricing over exact rationals, with the Python
  string hash abstracted as an arbitrary function `String → ℤ`, since
  CPython's `hash` is salted per process;
* candidate generation, the radius filter, and the stable `(totalPrice,
  distanceMiles)` sort of the `/api/search` handler `search_stores`.
-/

namespace CheapStop

open Real List

/-! ## Definitions (shallow embedding of `src/main.py`) -/

/-- `math.radians`: degrees to radians. -/
noncomputable def radians (deg : ℝ) : ℝ := deg * (Real.pi / 180)

/-- Python's `math.atan2 y x`. -/
noncomputable def atan2 (y x : ℝ) : ℝ :=
  if 0 < x then Real.arctan (y / x)
  else if x < 0 then
    (if 0 ≤ y then Real.arctan (y / x) + Real.pi else Real.arctan (y / x) - Real.pi)
  else
    (if 0 < y then Real.pi / 2 else if y < 0 then -(Real.pi / 2) else 0)

/-- The intermediate value `a` computed inside `haversine` in `src/main.py`:
`a = sin(dphi/2)**2 + cos(phi1)*cos(phi2)*sin(dlambda/2)**2`. -/
noncomputable def havA (lat1 lon1 lat2 lon2 : ℝ) : ℝ :=
  Real.sin (radians (lat2 - lat1) / 2) ^ 2 +
    Real.cos (radians lat1) * Real.cos (radians lat2) *
      Real.sin (radians (lon2 - lon1) / 2) ^ 2

/-- `haversine` from `src/main.py` (lines 22–32): distance in miles between
two lat/lng points, `R = 3958.8`, `c = 2*atan2(sqrt(a), sqrt(1-a))`,
result `R*c`. -/
noncomputable def haversine (lat1 lon1 lat2 lon2 : ℝ) : ℝ :=
  3958.8 *
    (2 * atan2 (Real.sqrt (havA lat1 lon1 lat2 lon2))
      (Real.sqrt (1 - havA lat1 lon1 lat2 lon2)))

/-- Helper for Python `s.split(',')` over the character list. -/
def splitCommaAux : List Char → List Char → List (List Char)
  | [], acc => [acc.reverse]
  | c :: cs, acc =>
    if c = ',' then acc.reverse :: splitCommaAux cs [] else splitCommaAux cs (c :: acc)

/-- Python `s.split(',')`. -/
def pySplitComma (s : String) : List String :=
  (splitCommaAux s.toList []).map List.asString

/-- Python `s.strip()`: drop whitespace from both ends. -/
def pyStrip (s : String) : String :=
  (((s.toList.dropWhile Char.isWhitespace).reverse.dropWhile
    Char.isWhitespace).reverse).asString

/-- Line 83: `[part.strip() for part in payload.query.split(',') if part.strip()]`
(an empty Python string is falsy, so the guard keeps exactly the parts whose
stripped form is non-empty). -/
def parseItems (q : String) : List String :=
  ((pySplitComma q).filter (fun part => decide (pyStrip part ≠ ""))).map pyStrip

/-- Line 110: `base = max(1.0, (len(name) % 7) + 1)`, over exact rationals. -/
def itemBase (name : String) : ℚ := max 1 ((name.length % 7 + 1 : ℕ) : ℚ)

/-- The jitter summand of line 111: `(hash(name + chain["id"]) % 100) / 250.0`.
The Python string hash is abstracted as a parameter `hash : String → ℤ`;
Python `%` with a positive modulus agrees with `Int.emod`. -/
def itemJitter (hash : String → ℤ) (name chainId : String) : ℚ :=
  ((hash (name ++ chainId) % 100 : ℤ) : ℚ) / 250

/-- Python `round(q)`: round half to even. -/
def roundHalfEven (q : ℚ) : ℤ :=
  if q - ⌊q⌋ < 1 / 2 then ⌊q⌋
  else if (1 : ℚ) / 2 < q - ⌊q⌋ then ⌊q⌋ + 1
  else if Even (⌊q⌋ : ℤ) then ⌊q⌋ else ⌊q⌋ + 1

/-- Python `round(q, 2)` over exact rationals. -/
def pyRound2 (q : ℚ) : ℚ := (roundHalfEven (q * 100) : ℚ) / 100

/-- Line 111: `price = round(base * 0.99 + (hash(name + chain["id"]) % 100) / 250.0, 2)`. -/
def itemPrice (hash : String → ℤ) (name chainId : String) : ℚ :=
  pyRound2 (itemBase name * 0.99 + itemJitter hash name chainId)

/-- Python `round(x)` on the real model: round half to even. -/
noncomputable def roundHalfEvenR (x : ℝ) : ℤ :=
  if x - ⌊x⌋ < 1 / 2 then ⌊x⌋
  else if (1 : ℝ) / 2 < x - ⌊x⌋ then ⌊x⌋ + 1
  else if Even (⌊x⌋ : ℤ) then ⌊x⌋ else ⌊x⌋ + 1

/-- Python `round(x, 2)` on reals. -/
noncomputable def pyRound2R (x : ℝ) : ℝ := (roundHalfEvenR (x * 100) : ℝ) / 100

/-- Python `round(x, 6)` on reals. -/
noncomputable def pyRound6R (x : ℝ) : ℝ :=
  (roundHalfEvenR (x * 1000000) : ℝ) / 1000000

/-- Python `int(x)`: truncation toward zero. -/
noncomputable def pyTrunc (x : ℝ) : ℤ := if 0 ≤ x then ⌊x⌋ else ⌈x⌉

/-- Static chain table (lines 36–40). -/
structure Chain where
  id : String
  name : String

def BASE_CHAINS : List Chain :=
  [⟨"walmart", "Walmart Supercenter"⟩, ⟨"target", "Target"⟩, ⟨"kroger", "Kroger"⟩]

/-- The parsed request body. `radiusMiles` is `Optional[float]`; `none`
models an explicit JSON `null` (Python `None`). When the field is absent
pydantic fills the default `5.0` before the handler runs. -/
structure SearchRequest where
  query : String
  lat : ℝ
  lng : ℝ
  radiusMiles : Option ℝ

structure Item where
  name : String
  price : ℚ
  quantity : ℕ

structure StoreResult where
  storeId : String
  storeName : String
  distanceMiles : ℝ
  lat : ℝ
  lng : ℝ
  totalPrice : ℚ
  items : List Item

structure SearchResponse where
  query : String
  mode : String
  totalStores : ℕ
  stores : List StoreResult

/-- `HTTPException(status_code=..., detail=...)`. -/
structure HTTPException where
  status_code : ℕ
  detail : String

/-- The fixed offset list (lines 89–93). -/
noncomputable def offsets : List (ℝ × ℝ) :=
  [(0.010, 0.012), (-0.008, 0.009), (0.006, -0.010)]

/-- One loop iteration's geometric data (lines 97–100). -/
structure Candidate where
  chain : Chain
  storeLat : ℝ
  storeLng : ℝ
  dist : ℝ

/-- Lines 97–100: one candidate per chain, chains zipped positionally with
offsets, `dist = haversine(lat, lng, store_lat, store_lng)`. -/
noncomputable def candidateStores (lat lng : ℝ) : List Candidate :=
  (BASE_CHAINS.zip offsets).map (fun p =>
    { chain := p.1
      storeLat := lat + p.2.1
      storeLng := lng + p.2.2
      dist := haversine lat lng (lat + p.2.1) (lng + p.2.2) })

/-- Line 103's skip condition `payload.radiusMiles and dist > payload.radiusMiles`
under Python truthiness: `None` and `0.0` are falsy and bypass the check. -/
def skipStore : Option ℝ → ℝ → Prop
  | none, _ => False
  | some v, d => v ≠ 0 ∧ d > v

/-- Boolean form of the filter's keep decision (`continue` not taken). -/
noncomputable def keepB (r : Option ℝ) (d : ℝ) : Bool :=
  @decide (¬ skipStore r d) (Classical.propDecidable _)

/-- Lines 106–125: enrich the parsed items with pseudo-prices and build one
`StoreResult` for a surviving candidate. -/
noncomputable def mkStoreResult (hash : String → ℤ) (items : List String)
    (c : Candidate) : StoreResult :=
  { storeId := c.chain.id ++ "-" ++ toString (pyTrunc (c.storeLat * 1000)).natAbs
      ++ "-" ++ toString (pyTrunc (c.storeLng * 1000)).natAbs
    storeName := c.chain.name
    distanceMiles := pyRound2R c.dist
    lat := pyRound6R c.storeLat
    lng := pyRound6R c.storeLng
    totalPrice := pyRound2 ((items.map (fun name => itemPrice hash name c.chain.id)).sum)
    items := items.map (fun name => Item.mk name (itemPrice hash name c.chain.id) 1) }

/-- The ranking key order of line 127: `(totalPrice, distanceMiles)`
lexicographically. -/
def storeLe (s t : StoreResult) : Prop :=
  s.totalPrice < t.totalPrice ∨
    (s.totalPrice = t.totalPrice ∧ s.distanceMiles ≤ t.distanceMiles)

noncomputable def storeLeB (s t : StoreResult) : Bool :=
  @decide (storeLe s t) (Classical.propDecidable _)

/-- The loop of lines 97–125: the `stores` list right before the sort —
candidates that pass the radius filter, priced with `mkStoreResult`, in
chain order. -/
noncomputable def surviving (hash : String → ℤ) (req : SearchRequest) :
    List StoreResult :=
  ((candidateStores req.lat req.lng).filter
      (fun c => keepB req.radiusMiles c.dist)).map
    (mkStoreResult hash (parseItems req.query))

/-- Lines 87–133 of `search_stores`, after the item-list validation:
generate candidates, apply the radius filter, price each surviving store,
sort stably by `(totalPrice, distanceMiles)` (line 127; Python's sort is
stable) and assemble the response (`totalStores = len(stores)`). -/
noncomputable def buildResponse (hash : String → ℤ) (req : SearchRequest) :
    SearchResponse :=
  let sorted := (surviving hash req).mergeSort storeLeB
  { query := req.query, mode := "live", totalStores := sorted.length,
    stores := sorted }

/-- The `/api/search` handler (lines 81–134); the raised
`HTTPException(400, ...)` is the `Except.error` branch. -/
noncomputable def search_stores (hash : String → ℤ) (req : SearchRequest) :
    Except HTTPException SearchResponse :=
  if parseItems req.query = [] then
    .error ⟨400, "Please provide at least one item in the query."⟩
  else
    .ok (buildResponse hash req)

/-! ## Helper lemmas: the haversine value `a` -/

lemma sin_sq_half_angle (x : ℝ) :
    Real.sin (x / 2) ^ 2 = (1 - Real.cos x) / 2 := by
  have h1 : Real.cos (2 * (x / 2)) = 2 * Real.cos (x / 2) ^ 2 - 1 :=
    Real.cos_two_mul (x / 2)
  have h2 : Real.sin (x / 2) ^ 2 + Real.cos (x / 2) ^ 2 = 1 :=
    Real.sin_sq_add_cos_sq (x / 2)
  have h3 : (2 : ℝ) * (x / 2) = x := by ring
  rw [h3] at h1
  linarith

lemma radians_sub (x y : ℝ) : radians (x - y) = radians x - radians y := by
  unfold radians; ring

/-- `a` rewritten through the chord value
`cos φ₁ cos φ₂ cos Δλ + sin φ₁ sin φ₂` (the dot product of the two unit
vectors on the sphere). -/
lemma havA_eq_chord (lat1 lon1 lat2 lon2 : ℝ) :
    havA lat1 lon1 lat2 lon2 =
      (1 - (Real.cos (radians lat1) * Real.cos (radians lat2) *
          Real.cos (radians (lon2 - lon1)) +
        Real.sin (radians lat1) * Real.sin (radians lat2))) / 2 := by
  unfold havA
  rw [sin_sq_half_angle, sin_sq_half_angle, radians_sub,
    Real.cos_sub]
  ring

/-- Cauchy–Schwarz-style bound: the chord value of two unit vectors stays
in `[-1, 1]`. -/
lemma cs_unit_bound (c1 s1 c2 s2 L : ℝ) (hp : s1 ^ 2 + c1 ^ 2 = 1)
    (hq : s2 ^ 2 + c2 ^ 2 = 1) (hL : -1 ≤ L) (hL' : L ≤ 1) :
    -1 ≤ c1 * c2 * L + s1 * s2 ∧ c1 * c2 * L + s1 * s2 ≤ 1 := by
  have h1 : (c1 * c2 * L + s1 * s2) ^ 2 + (c1 * s2 - s1 * c2 * L) ^ 2 =
      (c1 ^ 2 + s1 ^ 2) * ((c2 * L) ^ 2 + s2 ^ 2) := by ring
  have h2 : c1 ^ 2 + s1 ^ 2 = 1 := by linarith
  rw [h2, one_mul] at h1
  have hcq : 0 ≤ c2 ^ 2 * (1 - L ^ 2) :=
    mul_nonneg (sq_nonneg _) (by nlinarith)
  have h3 : (c2 * L) ^ 2 + s2 ^ 2 ≤ 1 := by nlinarith
  have key : (c1 * c2 * L + s1 * s2) ^ 2 ≤ 1 := by
    nlinarith [sq_nonneg (c1 * s2 - s1 * c2 * L)]
  constructor
  · nlinarith [sq_nonneg (c1 * c2 * L + s1 * s2 + 1)]
  · nlinarith [sq_nonneg (c1 * c2 * L + s1 * s2 - 1)]

lemma chord_abs_le_one (p q L : ℝ) (hL : -1 ≤ L) (hL' : L ≤ 1) :
    -1 ≤ Real.cos p * Real.cos q * L + Real.sin p * Real.sin q ∧
      Real.cos p * Real.cos q * L + Real.sin p * Real.sin q ≤ 1 :=
  cs_unit_bound (Real.cos p) (Real.sin p) (Real.cos q) (Real.sin q) L
    (Real.sin_sq_add_cos_sq p) (Real.sin_sq_add_cos_sq q) hL hL'

lemma havA_nonneg (lat1 lon1 lat2 lon2 : ℝ) :
    0 ≤ havA lat1 lon1 lat2 lon2 := by
  rw [havA_eq_chord]
  have h := chord_abs_le_one (radians lat1) (radians lat2)
    (Real.cos (radians (lon2 - lon1)))
    (Real.neg_one_le_cos _) (Real.cos_le_one _)
  linarith [h.2]

lemma havA_le_one (lat1 lon1 lat2 lon2 : ℝ) :
    havA lat1 lon1 lat2 lon2 ≤ 1 := by
  rw [havA_eq_chord]
  have h := chord_abs_le_one (radians lat1) (radians lat2)
    (Real.cos (radians (lon2 - lon1)))
    (Real.neg_one_le_cos _) (Real.cos_le_one _)
  linarith [h.1]

/-! ## Helper lemmas: `atan2` on the first quadrant -/

lemma atan2_nonneg {y x : ℝ} (hy : 0 ≤ y) (hx : 0 ≤ x) : 0 ≤ atan2 y x := by
  unfold atan2
  rcases lt_or_eq_of_le hx with hx' | hx'
  · rw [if_pos hx']
    have : (0 : ℝ) ≤ y / x := div_nonneg hy (le_of_lt hx')
    have h := Real.arctan_strictMono.monotone this
    rwa [Real.arctan_zero] at h
  · subst hx'
    rw [if_neg (lt_irrefl 0), if_neg (lt_irrefl 0)]
    rcases lt_or_eq_of_le hy with hy' | hy'
    · rw [if_pos hy']
      positivity
    · subst hy'
      rw [if_neg (lt_irrefl 0), if_neg (lt_irrefl 0)]

lemma atan2_sqrt_eq_zero_iff {a : ℝ} (h0 : 0 ≤ a) (h1 : a ≤ 1) :
    atan2 (Real.sqrt a) (Real.sqrt (1 - a)) = 0 ↔ a = 0 := by
  rcases lt_or_eq_of_le h1 with hlt | heq
  · have hxpos : 0 < Real.sqrt (1 - a) := Real.sqrt_pos.mpr (by linarith)
    unfold atan2
    rw [if_pos hxpos, Real.arctan_eq_zero_iff, div_eq_zero_iff]
    constructor
    · rintro (h | h)
      · exact (Real.sqrt_eq_zero h0).mp h
      · exact absurd h (ne_of_gt hxpos)
    · intro h; left; rw [h, Real.sqrt_zero]
  · have hx0 : Real.sqrt (1 - a) = 0 := by rw [heq]; simp
    have hy1 : Real.sqrt a = 1 := by rw [heq]; simp
    unfold atan2
    rw [hx0, hy1]
    rw [if_neg (lt_irrefl 0), if_neg (lt_irrefl 0), if_pos one_pos]
    constructor
    · intro h
      exact absurd h (by positivity)
    · intro h; rw [h] at heq; norm_num at heq

/-! ## Helper lemmas: sign, self-distance and symmetry of `haversine` -/

/-- The haversine distance is non-negative for all real inputs. -/
lemma haversine_nonneg (lat1 lon1 lat2 lon2 : ℝ) :
    0 ≤ haversine lat1 lon1 lat2 lon2 := by
  unfold haversine
  have h := atan2_nonneg (Real.sqrt_nonneg (havA lat1 lon1 lat2 lon2))
    (Real.sqrt_nonneg (1 - havA lat1 lon1 lat2 lon2))
  nlinarith

lemma haversine_eq_zero_iff_havA {lat1 lon1 lat2 lon2 : ℝ} :
    haversine lat1 lon1 lat2 lon2 = 0 ↔ havA lat1 lon1 lat2 lon2 = 0 := by
  unfold haversine
  rw [mul_eq_zero, mul_eq_zero]
  have h := atan2_sqrt_eq_zero_iff (havA_nonneg lat1 lon1 lat2 lon2)
    (havA_le_one lat1 lon1 lat2 lon2)
  constructor
  · rintro (h' | h' | h')
    · norm_num at h'
    · norm_num at h'
    · exact h.mp h'
  · intro h'; right; right; exact h.mpr h'

lemma radians_zero : radians 0 = 0 := by unfold radians; ring

lemma haversine_self (lat lon : ℝ) : haversine lat lon lat lon = 0 := by
  rw [haversine_eq_zero_iff_havA]
  unfold havA
  simp [radians_zero]

lemma havA_comm (lat1 lon1 lat2 lon2 : ℝ) :
    havA lat1 lon1 lat2 lon2 = havA lat2 lon2 lat1 lon1 := by
  unfold havA
  have h1 : radians (lat1 - lat2) / 2 = -(radians (lat2 - lat1) / 2) := by
    unfold radians; ring
  have h2 : radians (lon1 - lon2) / 2 = -(radians (lon2 - lon1) / 2) := by
    unfold radians; ring
  rw [h1, h2, Real.sin_neg, Real.sin_neg]
  ring

/-! ## Helper lemmas: zero distance on the valid coordinate range -/

lemma pi_div_180_pos : (0 : ℝ) < Real.pi / 180 := by positivity

lemma radians_lt_radians {x y : ℝ} (h : x < y) : radians x < radians y :=
  mul_lt_mul_of_pos_right h pi_div_180_pos

lemma radians_eq_zero_iff {x : ℝ} : radians x = 0 ↔ x = 0 := by
  unfold radians
  constructor
  · intro h
    rcases mul_eq_zero.mp h with h' | h'
    · exact h'
    · exact absurd h' (ne_of_gt pi_div_180_pos)
  · intro h; rw [h]; ring

lemma sin_radians_half_eq_zero_iff {d : ℝ} (h1 : -360 < d) (h2 : d < 360) :
    Real.sin (radians d / 2) = 0 ↔ d = 0 := by
  have e1 : radians (-360) = -(2 * Real.pi) := by unfold radians; ring
  have e2 : radians 360 = 2 * Real.pi := by unfold radians; ring
  have hb1 : -Real.pi < radians d / 2 := by
    have h := radians_lt_radians h1
    rw [e1] at h
    linarith
  have hb2 : radians d / 2 < Real.pi := by
    have h := radians_lt_radians h2
    rw [e2] at h
    linarith
  rw [Real.sin_eq_zero_iff_of_lt_of_lt hb1 hb2]
  constructor
  · intro h
    exact radians_eq_zero_iff.mp (by linarith)
  · intro h
    rw [h, radians_zero]
    ring

lemma cos_radians_pos {lat : ℝ} (h1 : -90 < lat) (h2 : lat < 90) :
    0 < Real.cos (radians lat) := by
  apply Real.cos_pos_of_mem_Ioo
  have e1 : radians (-90) = -(Real.pi / 2) := by unfold radians; ring
  have e2 : radians 90 = Real.pi / 2 := by unfold radians; ring
  constructor
  · have h := radians_lt_radians h1
    rw [e1] at h
    exact h
  · have h := radians_lt_radians h2
    rw [e2] at h
    exact h

lemma havA_eq_zero_iff_valid {lat1 lon1 lat2 lon2 : ℝ}
    (ha1 : -90 < lat1) (ha2 : lat1 < 90) (hb1 : -90 < lat2) (hb2 : lat2 < 90)
    (hlon : |lon1 - lon2| < 360) :
    havA lat1 lon1 lat2 lon2 = 0 ↔ lat1 = lat2 ∧ lon1 = lon2 := by
  have hc1 := cos_radians_pos ha1 ha2
  have hc2 := cos_radians_pos hb1 hb2
  have habs := abs_lt.mp hlon
  have ht1 : 0 ≤ Real.sin (radians (lat2 - lat1) / 2) ^ 2 := sq_nonneg _
  have ht2 : 0 ≤ Real.cos (radians lat1) * Real.cos (radians lat2) *
      Real.sin (radians (lon2 - lon1) / 2) ^ 2 := by positivity
  unfold havA
  rw [add_eq_zero_iff_of_nonneg ht1 ht2]
  constructor
  · rintro ⟨hs, hp⟩
    have hsin1 : Real.sin (radians (lat2 - lat1) / 2) = 0 :=
      (pow_eq_zero_iff (by norm_num)).mp hs
    have hlat : lat2 - lat1 = 0 :=
      (sin_radians_half_eq_zero_iff (by linarith) (by linarith)).mp hsin1
    have hsq : Real.sin (radians (lon2 - lon1) / 2) ^ 2 = 0 := by
      rcases mul_eq_zero.mp hp with h | h
      · exact absurd h (ne_of_gt (mul_pos hc1 hc2))
      · exact h
    have hsin2 : Real.sin (radians (lon2 - lon1) / 2) = 0 :=
      (pow_eq_zero_iff (by norm_num)).mp hsq
    have hlon0 : lon2 - lon1 = 0 :=
      (sin_radians_half_eq_zero_iff (by linarith) (by linarith)).mp hsin2
    exact ⟨by linarith, by linarith⟩
  · rintro ⟨h1, h2⟩
    rw [h1, h2]
    simp [radians_zero]

/-- On the valid range (latitudes strictly between the poles, longitudes
less than a full revolution apart) the distance vanishes exactly on
identical coordinate pairs. -/
lemma haversine_eq_zero_iff_valid {lat1 lon1 lat2 lon2 : ℝ}
    (ha1 : -90 < lat1) (ha2 : lat1 < 90) (hb1 : -90 < lat2) (hb2 : lat2 < 90)
    (hlon : |lon1 - lon2| < 360) :
    haversine lat1 lon1 lat2 lon2 = 0 ↔ lat1 = lat2 ∧ lon1 = lon2 :=
  haversine_eq_zero_iff_havA.trans
    (havA_eq_zero_iff_valid ha1 ha2 hb1 hb2 hlon)

lemma cos_radians_90 : Real.cos (radians 90) = 0 := by
  rw [show radians 90 = Real.pi / 2 from by unfold radians; ring]
  exact Real.cos_pi_div_two

/-- At the north pole two different longitudes give haversine distance 0. -/
lemma haversine_pole : haversine 90 0 90 90 = 0 := by
  rw [haversine_eq_zero_iff_havA]
  unfold havA
  simp [radians_zero, cos_radians_90]

/-! ## Helper lemmas: the pipeline -/

lemma candidateStores_eq (lat lng : ℝ) :
    candidateStores lat lng =
      [⟨⟨"walmart", "Walmart Supercenter"⟩, lat + 0.010, lng + 0.012,
          haversine lat lng (lat + 0.010) (lng + 0.012)⟩,
        ⟨⟨"target", "Target"⟩, lat + -0.008, lng + 0.009,
          haversine lat lng (lat + -0.008) (lng + 0.009)⟩,
        ⟨⟨"kroger", "Kroger"⟩, lat + 0.006, lng + -0.010,
          haversine lat lng (lat + 0.006) (lng + -0.010)⟩] := rfl

lemma keepB_iff {r : Option ℝ} {d : ℝ} : keepB r d = true ↔ ¬ skipStore r d := by
  simp [keepB]

lemma storeLeB_iff {s t : StoreResult} : storeLeB s t = true ↔ storeLe s t := by
  simp [storeLeB]

lemma storeLe_trans {a b c : StoreResult} (h1 : storeLe a b) (h2 : storeLe b c) :
    storeLe a c := by
  rcases h1 with h1 | ⟨h1, h1d⟩ <;> rcases h2 with h2 | ⟨h2, h2d⟩
  · exact Or.inl (lt_trans h1 h2)
  · exact Or.inl (h2 ▸ h1)
  · exact Or.inl (h1 ▸ h2)
  · exact Or.inr ⟨h1.trans h2, le_trans h1d h2d⟩

lemma storeLe_total (a b : StoreResult) : storeLe a b ∨ storeLe b a := by
  rcases lt_trichotomy a.totalPrice b.totalPrice with h | h | h
  · exact Or.inl (Or.inl h)
  · rcases le_total a.distanceMiles b.distanceMiles with hd | hd
    · exact Or.inl (Or.inr ⟨h, hd⟩)
    · exact Or.inr (Or.inr ⟨h.symm, hd⟩)
  · exact Or.inr (Or.inl h)

lemma storeLeB_trans : ∀ a b c : StoreResult,
    storeLeB a b → storeLeB b c → storeLeB a c := by
  intro a b c h1 h2
  rw [storeLeB_iff] at h1 h2 ⊢
  exact storeLe_trans h1 h2

lemma storeLeB_total : ∀ a b : StoreResult, storeLeB a b || storeLeB b a := by
  intro a b
  rw [Bool.or_eq_true, storeLeB_iff, storeLeB_iff]
  exact storeLe_total a b

lemma candidate_eq_of_name_eq {lat lng : ℝ} {c c' : Candidate}
    (hc : c ∈ candidateStores lat lng) (hc' : c' ∈ candidateStores lat lng)
    (h : c.chain.name = c'.chain.name) : c = c' := by
  rw [candidateStores_eq] at hc hc'
  simp only [List.mem_cons, List.not_mem_nil, or_false] at hc hc'
  rcases hc with h1 | h1 | h1 <;> rcases hc' with h2 | h2 | h2 <;>
    subst h1 <;> subst h2 <;> first | rfl | simp_all

lemma dist_nonneg_of_mem {lat lng : ℝ} {c : Candidate}
    (hc : c ∈ candidateStores lat lng) : 0 ≤ c.dist := by
  rw [candidateStores_eq] at hc
  simp only [List.mem_cons, List.not_mem_nil, or_false] at hc
  rcases hc with h | h | h <;> subst h <;> exact haversine_nonneg _ _ _ _

lemma mem_surviving {hash : String → ℤ} {req : SearchRequest} {c : Candidate}
    (hc : c ∈ candidateStores req.lat req.lng) :
    mkStoreResult hash (parseItems req.query) c ∈ surviving hash req ↔
      ¬ skipStore req.radiusMiles c.dist := by
  unfold surviving
  constructor
  · intro hm
    rcases List.mem_map.mp hm with ⟨c', hc', heq⟩
    rcases List.mem_filter.mp hc' with ⟨hcm, hkeep⟩
    have hname : c'.chain.name = c.chain.name :=
      congrArg StoreResult.storeName heq
    have hcc : c' = c := candidate_eq_of_name_eq hcm hc hname
    subst hcc
    exact keepB_iff.mp hkeep
  · intro hk
    exact List.mem_map.mpr ⟨c, List.mem_filter.mpr ⟨hc, keepB_iff.mpr hk⟩, rfl⟩

lemma search_stores_ok {hash : String → ℤ} {req : SearchRequest}
    (h : parseItems req.query ≠ []) :
    search_stores hash req = .ok (buildResponse hash req) := by
  unfold search_stores
  rw [if_neg h]

lemma search_stores_ok_elim {hash : String → ℤ} {req : SearchRequest}
    {resp : SearchResponse} (hok : search_stores hash req = .ok resp) :
    resp = buildResponse hash req := by
  unfold search_stores at hok
  by_cases h : parseItems req.query = []
  · rw [if_pos h] at hok
    exact absurd hok (by simp)
  · rw [if_neg h] at hok
    injection hok with h'
    exact h'.symm

lemma buildResponse_stores (hash : String → ℤ) (req : SearchRequest) :
    (buildResponse hash req).stores = (surviving hash req).mergeSort storeLeB :=
  rfl

lemma roundHalfEven_intCast (n : ℤ) : roundHalfEven (n : ℚ) = n := by
  unfold roundHalfEven
  rw [Int.floor_intCast, sub_self, if_pos (by norm_num)]

/-- A rational with an exact two-decimal representation is unchanged by
Python's `round(_, 2)`. -/
lemma pyRound2_eq (q : ℚ) (n : ℤ) (h : q * 100 = (n : ℚ)) : pyRound2 q = q := by
  unfold pyRound2
  rw [h, roundHalfEven_intCast, ← h]
  exact mul_div_cancel_right₀ q (by norm_num)

/-! ## Claim theorems -/

/-- C7: the geo-distance function is symmetric: `haversine p q = haversine q p`
(exact equality in the real-number model). -/
theorem haversine_symm (lat1 lon1 lat2 lon2 : ℝ) :
    haversine lat1 lon1 lat2 lon2 = haversine lat2 lon2 lat1 lon1 := by
  unfold haversine
  rw [havA_comm]

/-- C6 (counterexample): at the north pole the two distinct input points
`(90, 0)` and `(90, 90)` have haversine distance exactly 0, so "zero iff the
two input points are identical" fails as stated. -/
theorem haversine_zero_not_iff_identical :
    haversine 90 0 90 90 = 0 ∧ ¬ (((90 : ℝ) = 90 ∧ (0 : ℝ) = 90)) := by
  refine ⟨haversine_pole, ?_⟩
  rintro ⟨-, h⟩
  norm_num at h

/-- C6 (amended): the distance is non-negative for all finite inputs and is
zero at identical points; "zero implies identical" additionally holds
whenever both latitudes are strictly between the poles and the longitudes
differ by less than a full revolution. -/
theorem haversine_nonneg_zero_iff (lat1 lon1 lat2 lon2 : ℝ) :
    0 ≤ haversine lat1 lon1 lat2 lon2 ∧
    haversine lat1 lon1 lat1 lon1 = 0 ∧
    (-90 < lat1 → lat1 < 90 → -90 < lat2 → lat2 < 90 → |lon1 - lon2| < 360 →
      (haversine lat1 lon1 lat2 lon2 = 0 ↔ lat1 = lat2 ∧ lon1 = lon2)) :=
  ⟨haversine_nonneg lat1 lon1 lat2 lon2, haversine_self lat1 lon1,
    fun ha1 ha2 hb1 hb2 hlon =>
      haversine_eq_zero_iff_valid ha1 ha2 hb1 hb2 hlon⟩

/-- Witness for C6's amended theorem at the concrete points `(40, -74)` and
`(41, -73)`. -/
theorem haversine_nonneg_zero_iff_witness :
    0 ≤ haversine 40 (-74) 41 (-73) ∧
    haversine 40 (-74) 40 (-74) = 0 ∧
    (haversine 40 (-74) 41 (-73) = 0 ↔ (40 : ℝ) = 41 ∧ (-74 : ℝ) = -73) := by
  obtain ⟨h1, h2, h3⟩ := haversine_nonneg_zero_iff 40 (-74) 41 (-73)
  exact ⟨h1, h2, h3 (by norm_num) (by norm_num) (by norm_num) (by norm_num)
    (by rw [abs_lt]; norm_num)⟩

/-- C8: the candidate generator yields exactly one candidate per chain —
three in this configuration — with `storeLat`/`storeLng` shifted by the
positionally paired offsets and `dist` computed by `haversine` from the
user's location. -/
theorem candidate_generation (lat lng : ℝ) :
    candidateStores lat lng =
      [⟨⟨"walmart", "Walmart Supercenter"⟩, lat + 0.010, lng + 0.012,
          haversine lat lng (lat + 0.010) (lng + 0.012)⟩,
        ⟨⟨"target", "Target"⟩, lat + -0.008, lng + 0.009,
          haversine lat lng (lat + -0.008) (lng + 0.009)⟩,
        ⟨⟨"kroger", "Kroger"⟩, lat + 0.006, lng + -0.010,
          haversine lat lng (lat + 0.006) (lng + -0.010)⟩] ∧
    (candidateStores lat lng).length = BASE_CHAINS.length ∧
    (candidateStores lat lng).length = 3 :=
  ⟨candidateStores_eq lat lng, rfl, rfl⟩

/-- C4: the claim "pricing is identical across processes because the string
hash is stable" is broken by the code — CPython's `hash` is salted per
process, and the derived price genuinely depends on the hash value: two
process hashes that differ on `"eggs" + "walmart"` (here the constant
functions 0 and 50) give different prices for the same
`(itemName, chainId)` pair. -/
theorem price_depends_on_hash :
    itemPrice (fun _ => 0) "eggs" "walmart" = 99 / 20 ∧
    itemPrice (fun _ => 50) "eggs" "walmart" = 103 / 20 ∧
    itemPrice (fun _ => 0) "eggs" "walmart" ≠
      itemPrice (fun _ => 50) "eggs" "walmart" := by
  have hbase : itemBase "eggs" = 5 := by
    rw [itemBase, show ("eggs" : String).length = 4 from rfl,
      show ((4 % 7 + 1 : ℕ) : ℚ) = 5 by norm_num]
    exact max_eq_right (by norm_num)
  have hj0 : itemJitter (fun _ => 0) "eggs" "walmart" = 0 := by
    unfold itemJitter
    norm_num
  have hj50 : itemJitter (fun _ => 50) "eggs" "walmart" = 1 / 5 := by
    unfold itemJitter
    norm_num
  have hp0 : itemPrice (fun _ => 0) "eggs" "walmart" = 99 / 20 := by
    unfold itemPrice
    rw [hbase, hj0, show (5 : ℚ) * 0.99 + 0 = 99 / 20 by norm_num]
    exact pyRound2_eq _ 495 (by norm_num)
  have hp50 : itemPrice (fun _ => 50) "eggs" "walmart" = 103 / 20 := by
    unfold itemPrice
    rw [hbase, hj50, show (5 : ℚ) * 0.99 + 1 / 5 = 103 / 20 by norm_num]
    exact pyRound2_eq _ 515 (by norm_num)
  refine ⟨hp0, hp50, ?_⟩
  rw [hp0, hp50]
  norm_num

/-- C5 (counterexample): the jitter attains its supremum `0.396` (at any
hash value congruent to 99 mod 100), so "lies in the half-open interval
`[0, 0.396)`" is false — the interval is closed on the right. -/
theorem jitter_attains_right_endpoint :
    itemJitter (fun _ => 99) "x" "walmart" = 99 / 250 ∧
    ¬ itemJitter (fun _ => 99) "x" "walmart" < 0.396 := by
  have hj : itemJitter (fun _ => 99) "x" "walmart" = 99 / 250 := by
    unfold itemJitter
    norm_num
  refine ⟨hj, ?_⟩
  rw [hj]
  norm_num

/-- C5 (amended): `base = max(1, len % 7 + 1)` is an integer value in
`[1, 7]`, the jitter `(hash(name+chainId) % 100)/250` lies in the closed
interval `[0, 0.396]`, and the price is `round(base * 0.99 + jitter, 2)`. -/
theorem price_formula_bounds (hash : String → ℤ) (name chainId : String) :
    itemBase name = max 1 ((name.length % 7 + 1 : ℕ) : ℚ) ∧
    (1 : ℚ) ≤ itemBase name ∧ itemBase name ≤ 7 ∧
    (∃ k : ℕ, itemBase name = (k : ℚ)) ∧
    0 ≤ itemJitter hash name chainId ∧
    itemJitter hash name chainId ≤ 0.396 ∧
    itemPrice hash name chainId =
      pyRound2 (itemBase name * 0.99 + itemJitter hash name chainId) := by
  have hmod : name.length % 7 ≤ 6 :=
    Nat.le_of_lt_succ (Nat.mod_lt _ (by norm_num))
  have hcast : ((name.length % 7 + 1 : ℕ) : ℚ) ≤ 7 := by
    have : (name.length % 7 + 1 : ℕ) ≤ 7 := by omega
    exact_mod_cast this
  have hone : (1 : ℚ) ≤ ((name.length % 7 + 1 : ℕ) : ℚ) := by
    exact_mod_cast Nat.succ_le_succ (Nat.zero_le _)
  refine ⟨rfl, le_max_left _ _, ?_, ⟨name.length % 7 + 1, ?_⟩, ?_, ?_, rfl⟩
  · exact max_le (by norm_num) hcast
  · rw [itemBase, max_eq_right hone]
  · unfold itemJitter
    have h0 : (0 : ℤ) ≤ hash (name ++ chainId) % 100 :=
      Int.emod_nonneg _ (by norm_num)
    have h0q : (0 : ℚ) ≤ ((hash (name ++ chainId) % 100 : ℤ) : ℚ) := by
      exact_mod_cast h0
    exact div_nonneg h0q (by norm_num)
  · unfold itemJitter
    have h99 : hash (name ++ chainId) % 100 ≤ 99 := by
      have := Int.emod_lt_of_pos (hash (name ++ chainId))
        (show (0 : ℤ) < 100 by norm_num)
      omega
    have h99q : ((hash (name ++ chainId) % 100 : ℤ) : ℚ) ≤ 99 := by
      exact_mod_cast h99
    rw [show (0.396 : ℚ) = 99 / 250 by norm_num]
    exact (div_le_div_iff_of_pos_right (by norm_num)).mpr h99q

/-- C2: the search fails — with exactly the HTTP-400 "at least one item"
error and no partial result — iff splitting the query on commas and
trimming leaves no non-empty part; it succeeds on every other query. -/
theorem empty_items_validation (hash : String → ℤ) (req : SearchRequest) :
    (search_stores hash req =
        .error ⟨400, "Please provide at least one item in the query."⟩ ↔
      parseItems req.query = []) ∧
    ((∃ resp, search_stores hash req = .ok resp) ↔
      parseItems req.query ≠ []) := by
  unfold search_stores
  by_cases h : parseItems req.query = [] <;> simp [h]

/-- C9: every successful response satisfies `totalStores = stores.length`,
has the constant mode `"live"`, and echoes the request's query verbatim. -/
theorem response_invariants (hash : String → ℤ) (req : SearchRequest)
    (resp : SearchResponse) (hok : search_stores hash req = .ok resp) :
    resp.totalStores = resp.stores.length ∧ resp.mode = "live" ∧
      resp.query = req.query := by
  rw [search_stores_ok_elim hok]
  exact ⟨rfl, rfl, rfl⟩

/-- Witness for C9 at `{query := "a", lat := 0, lng := 0, radiusMiles := none}`. -/
theorem response_invariants_witness :
    (buildResponse (fun _ => 0) ⟨"a", 0, 0, none⟩).totalStores =
        (buildResponse (fun _ => 0) ⟨"a", 0, 0, none⟩).stores.length ∧
      (buildResponse (fun _ => 0) ⟨"a", 0, 0, none⟩).mode = "live" ∧
      (buildResponse (fun _ => 0) ⟨"a", 0, 0, none⟩).query = "a" :=
  response_invariants (fun _ => 0) ⟨"a", 0, 0, none⟩ _
    (search_stores_ok (by decide))

/-- C10: a strictly negative radius is truthy and every candidate's
non-negative haversine distance exceeds it, so all candidates are excluded:
the response has `stores = []` and `totalStores = 0`. -/
theorem negative_radius_empty (hash : String → ℤ) (req : SearchRequest)
    (v : ℝ) (hv : req.radiusMiles = some v) (hneg : v < 0)
    (hne : parseItems req.query ≠ []) :
    search_stores hash req = .ok ⟨req.query, "live", 0, []⟩ := by
  rw [search_stores_ok hne]
  have hfilter : (candidateStores req.lat req.lng).filter
      (fun c => keepB req.radiusMiles c.dist) = [] := by
    rw [List.filter_eq_nil_iff]
    intro c hc hk
    exact keepB_iff.mp hk
      (by rw [hv]
          exact ⟨ne_of_lt hneg, lt_of_lt_of_le hneg (dist_nonneg_of_mem hc)⟩)
  unfold buildResponse surviving
  rw [hfilter]
  simp

/-- Witness for C10 at radius `-1`. -/
theorem negative_radius_empty_witness :
    search_stores (fun _ => 0) ⟨"a", 0, 0, some (-1)⟩ =
      .ok ⟨"a", "live", 0, []⟩ :=
  negative_radius_empty (fun _ => 0) ⟨"a", 0, 0, some (-1)⟩ (-1) rfl
    (by norm_num) (by decide)

/-- C1: in a successful search a candidate's priced store appears in the
output iff the radius check keeps it — it is discarded exactly when
`radiusMiles` is truthy (present, non-zero) and the distance exceeds it —
`totalStores` counts exactly the surviving candidates, and a `radiusMiles`
of `None` or `0` disables the filter (every candidate passes through). -/
theorem radius_filter_iff (hash : String → ℤ) (req : SearchRequest)
    (resp : SearchResponse) (hok : search_stores hash req = .ok resp)
    (c : Candidate) (hc : c ∈ candidateStores req.lat req.lng) :
    (mkStoreResult hash (parseItems req.query) c ∈ resp.stores ↔
      ¬ skipStore req.radiusMiles c.dist) ∧
    resp.stores.length = ((candidateStores req.lat req.lng).filter
      (fun c => keepB req.radiusMiles c.dist)).length ∧
    ((req.radiusMiles = none ∨ req.radiusMiles = some 0) →
      mkStoreResult hash (parseItems req.query) c ∈ resp.stores) := by
  rw [search_stores_ok_elim hok, buildResponse_stores]
  refine ⟨?_, ?_, ?_⟩
  · rw [List.mem_mergeSort]
    exact mem_surviving hc
  · rw [List.length_mergeSort]
    unfold surviving
    rw [List.length_map]
  · intro hr
    rw [List.mem_mergeSort]
    refine (mem_surviving hc).mpr ?_
    rcases hr with h | h <;> rw [h]
    · exact not_false
    · rintro ⟨h0, -⟩
      exact h0 rfl

/-- Witness for C1 at the walmart candidate of the request
`{query := "a", lat := 0, lng := 0, radiusMiles := none}`. -/
theorem radius_filter_iff_witness :
    (mkStoreResult (fun _ => 0) (parseItems "a")
        ⟨⟨"walmart", "Walmart Supercenter"⟩, (0 : ℝ) + 0.010, (0 : ℝ) + 0.012,
          haversine 0 0 ((0 : ℝ) + 0.010) ((0 : ℝ) + 0.012)⟩ ∈
        (buildResponse (fun _ => 0) ⟨"a", 0, 0, none⟩).stores ↔
      ¬ skipStore none (haversine 0 0 ((0 : ℝ) + 0.010) ((0 : ℝ) + 0.012))) ∧
    (buildResponse (fun _ => 0) ⟨"a", 0, 0, none⟩).stores.length =
      ((candidateStores (0 : ℝ) (0 : ℝ)).filter
        (fun c => keepB none c.dist)).length ∧
    mkStoreResult (fun _ => 0) (parseItems "a")
        ⟨⟨"walmart", "Walmart Supercenter"⟩, (0 : ℝ) + 0.010, (0 : ℝ) + 0.012,
          haversine 0 0 ((0 : ℝ) + 0.010) ((0 : ℝ) + 0.012)⟩ ∈
      (buildResponse (fun _ => 0) ⟨"a", 0, 0, none⟩).stores := by
  obtain ⟨h1, h2, h3⟩ := radius_filter_iff (fun _ => 0) ⟨"a", 0, 0, none⟩ _
    (search_stores_ok (by decide))
    ⟨⟨"walmart", "Walmart Supercenter"⟩, (0 : ℝ) + 0.010, (0 : ℝ) + 0.012,
      haversine 0 0 ((0 : ℝ) + 0.010) ((0 : ℝ) + 0.012)⟩
    (by rw [candidateStores_eq]; exact List.mem_cons_self _ _)
  exact ⟨h1, h2, h3 (Or.inl rfl)⟩

/-- C3: the stores of a successful response are pairwise ordered by the
lexicographic key `(totalPrice, distanceMiles)`, and the sort is stable:
any key-equal subsequence of the pre-sort store list (which is in the
fixed walmart, target, kroger encounter order) is still a subsequence of
the output. -/
theorem stores_sorted_stable (hash : String → ℤ) (req : SearchRequest)
    (resp : SearchResponse) (hok : search_stores hash req = .ok resp)
    (l : List StoreResult)
    (hkey : l.Pairwise (fun s t => s.totalPrice = t.totalPrice ∧
      s.distanceMiles = t.distanceMiles))
    (hsub : l.Sublist (surviving hash req)) :
    resp.stores.Pairwise storeLe ∧ l.Sublist resp.stores := by
  rw [search_stores_ok_elim hok, buildResponse_stores]
  constructor
  · have h := List.sorted_mergeSort storeLeB_trans storeLeB_total
      (surviving hash req)
    exact h.imp (fun hab => storeLeB_iff.mp hab)
  · have hle : l.Pairwise (fun s t => storeLeB s t = true) :=
      hkey.imp (fun hab => storeLeB_iff.mpr (Or.inr ⟨hab.1, le_of_eq hab.2⟩))
    exact List.sublist_mergeSort storeLeB_trans storeLeB_total hle hsub

/-- Witness for C3 at `{query := "a", lat := 0, lng := 0, radiusMiles := none}`
and the empty (vacuously key-equal) subsequence. -/
theorem stores_sorted_stable_witness :
    (buildResponse (fun _ => 0) ⟨"a", 0, 0, none⟩).stores.Pairwise storeLe ∧
    List.Sublist [] (buildResponse (fun _ => 0) ⟨"a", 0, 0, none⟩).stores :=
  stores_sorted_stable (fun _ => 0) ⟨"a", 0, 0, none⟩ _
    (search_stores_ok (by decide)) [] List.Pairwise.nil (List.nil_sublist _)

end CheapStop
